import Mathlib

/-!
Verification development for the `agent-memex` memory retrieval engine
(`tools/memory-search-simple.py`, `tools/memory-timeline.py`).

The Python source is shallowly embedded: Python `str` values become Lean
`String`, `Optional[str]` fields become `Option String`, machine-level
hashing (`hashlib.md5`) is implemented bit-faithfully over `Nat` with
explicit `% 2^32` reductions, and the fallible / stateful operations
(`search` with its lazy index build, `get_timeline`) become explicit
functions over a `World` value returning `Except` to model raised
exceptions versus returned values.

Python string operations used by the source (`<` comparison, `split`,
`strip`, `startswith`, `replace`) are re-implemented here over `List Char`
with Python's code-point semantics, because Lean's built-in `String`
versions do not reduce inside the kernel.
-/

set_option maxRecDepth 8000

deriving instance DecidableEq for Except

namespace Memex

/-! ## Python string primitives -/

/-- Python `str` lexicographic `<` on code points (`a < b` for `str`). -/
def strLtB : List Char → List Char → Bool
  | [], [] => false
  | [], _ :: _ => true
  | _ :: _, [] => false
  | a :: as, b :: bs =>
    if a.toNat < b.toNat then true
    else if b.toNat < a.toNat then false
    else strLtB as bs

/-- Python `s < t` on strings. -/
def pyLt (s t : String) : Bool := strLtB s.data t.data

/-- Python `s <= t` on strings. -/
def pyLe (s t : String) : Bool := pyLt s t || s == t

/-- Python whitespace (the ASCII part, which is what the sources contain). -/
def pyIsWs (c : Char) : Bool :=
  c == ' ' || c == '\t' || c == '\n' || c == '\x0b' || c == '\x0c' || c == '\r'

/-- Python `s.strip(chars)`: drop characters of `set` from both ends. -/
def stripCharsList (set : List Char) (l : List Char) : List Char :=
  ((l.dropWhile (set.contains ·)).reverse.dropWhile (set.contains ·)).reverse

/-- Python `s.strip(chars)` on strings. -/
def pyStripChars (set : List Char) (s : String) : String :=
  String.mk (stripCharsList set s.data)

/-- Python `s.strip()` (whitespace strip). -/
def pyStrip (s : String) : String :=
  String.mk (((s.data.dropWhile pyIsWs).reverse.dropWhile pyIsWs).reverse)

/-- Python `s.split('\n')` (no collapsing of empty parts). -/
def splitNlList : List Char → List (List Char)
  | [] => [[]]
  | c :: rest =>
    let r := splitNlList rest
    if c == '\n' then [] :: r
    else
      match r with
      | [] => [[c]]
      | h :: t => (c :: h) :: t

/-- Python `s.split('\n')` on strings. -/
def pySplitNl (s : String) : List String :=
  (splitNlList s.data).map String.mk

/-- Python `s.startswith(pat)`. -/
def startsWithList : List Char → List Char → Bool
  | _, [] => true
  | [], _ :: _ => false
  | c :: cs, p :: ps => c == p && startsWithList cs ps

/-- Python `s.startswith(pat)` on strings. -/
def pyStartsWith (s pat : String) : Bool := startsWithList s.data pat.data

/-- Helper for `pyReplace`: drop a leading occurrence of `p`. -/
def dropStart : List Char → List Char → List Char
  | l, [] => l
  | [], _ :: _ => []
  | _ :: cs, _ :: ps => dropStart cs ps

/-- Python `s.replace(pat, repl)` for nonempty `pat = p :: ps`: replace all
non-overlapping occurrences left to right.  Structural recursion on a fuel
argument (kept at least the list length by the wrapper) so that the kernel
can evaluate it; each step consumes at least one character. -/
def replaceList (p : Char) (ps repl : List Char) : Nat → List Char → List Char
  | _, [] => []
  | 0, l => l
  | fuel + 1, c :: cs =>
    if startsWithList (c :: cs) (p :: ps) then
      repl ++ replaceList p ps repl fuel (dropStart cs ps)
    else
      c :: replaceList p ps repl fuel cs

/-- Python `s.replace(pat, repl)` on strings (identity for empty `pat`,
which the source never uses). -/
def pyReplace (s pat repl : String) : String :=
  match pat.data with
  | [] => s
  | p :: ps => String.mk (replaceList p ps repl.data s.data.length s.data)

/-- Python `s[:n]` (slicing counts code points). -/
def pyTake (s : String) (n : Nat) : String := String.mk (s.data.take n)

/-- Python truthiness of an `Optional[str]`: `None` and `''` are falsy. -/
def pyTruthy (o : Option String) : Bool := o.getD "" ≠ ""

/-- Python `x or ''` for `x : Optional[str]`. -/
def pyOrEmpty (o : Option String) : String := o.getD ""

/-! ## MD5 (bit-faithful, over `Nat` bytes)

`MemoryEntry.generate_id` hashes `f"{source}:{content[:200]}".encode()`
with `hashlib.md5` and keeps the first 12 hex digits. -/

/-- UTF-8 encoding of one scalar value (Python `str.encode()`). -/
def utf8EncodeChar (c : Char) : List Nat :=
  let n := c.toNat
  if n < 0x80 then [n]
  else if n < 0x800 then
    [0xC0 + n / 64, 0x80 + n % 64]
  else if n < 0x10000 then
    [0xE0 + n / 4096, 0x80 + (n / 64) % 64, 0x80 + n % 64]
  else
    [0xF0 + n / 262144, 0x80 + (n / 4096) % 64, 0x80 + (n / 64) % 64, 0x80 + n % 64]

/-- UTF-8 bytes of a string. -/
def utf8Encode (s : String) : List Nat :=
  s.data.flatMap utf8EncodeChar

/-- `n` little-endian bytes of `v`. -/
def leBytes : Nat → Nat → List Nat
  | 0, _ => []
  | n + 1, v => (v % 256) :: leBytes n (v / 256)

/-- MD5 per-round shift amounts. -/
def md5S : List Nat :=
  [7, 12, 17, 22, 7, 12, 17, 22, 7, 12, 17, 22, 7, 12, 17, 22,
   5, 9, 14, 20, 5, 9, 14, 20, 5, 9, 14, 20, 5, 9, 14, 20,
   4, 11, 16, 23, 4, 11, 16, 23, 4, 11, 16, 23, 4, 11, 16, 23,
   6, 10, 15, 21, 6, 10, 15, 21, 6, 10, 15, 21, 6, 10, 15, 21]

/-- MD5 sine-derived constants `K[i] = floor(2^32 * abs(sin(i+1)))`. -/
def md5K : List Nat :=
  [0xd76aa478, 0xe8c7b756, 0x242070db, 0xc1bdceee,
   0xf57c0faf, 0x4787c62a, 0xa8304613, 0xfd469501,
   0x698098d8, 0x8b44f7af, 0xffff5bb1, 0x895cd7be,
   0x6b901122, 0xfd987193, 0xa679438e, 0x49b40821,
   0xf61e2562, 0xc040b340, 0x265e5a51, 0xe9b6c7aa,
   0xd62f105d, 0x02441453, 0xd8a1e681, 0xe7d3fbc8,
   0x21e1cde6, 0xc33707d6, 0xf4d50d87, 0x455a14ed,
   0xa9e3e905, 0xfcefa3f8, 0x676f02d9, 0x8d2a4c8a,
   0xfffa3942, 0x8771f681, 0x6d9d6122, 0xfde5380c,
   0xa4beea44, 0x4bdecfa9, 0xf6bb4b60, 0xbebfbc70,
   0x289b7ec6, 0xeaa127fa, 0xd4ef3085, 0x04881d05,
   0xd9d4d039, 0xe6db99e5, 0x1fa27cf8, 0xc4ac5665,
   0xf4292244, 0x432aff97, 0xab9423a7, 0xfc93a039,
   0x655b59c3, 0x8f0ccc92, 0xffeff47d, 0x85845dd1,
   0x6fa87e4f, 0xfe2ce6e0, 0xa3014314, 0x4e0811a1,
   0xf7537e82, 0xbd3af235, 0x2ad7d2bb, 0xeb86d391]

/-- 32-bit left rotation (input assumed `< 2^32`). -/
def rotl32 (x s : Nat) : Nat :=
  (x * 2 ^ s) % 4294967296 + x / 2 ^ (32 - s)

/-- 32-bit complement of `x < 2^32`. -/
def not32 (x : Nat) : Nat := x ^^^ 4294967295

/-- Message word `g` (little-endian) of a 64-byte block. -/
def md5Word (block : List Nat) (g : Nat) : Nat :=
  block.getD (4 * g) 0 + 256 * block.getD (4 * g + 1) 0 +
    65536 * block.getD (4 * g + 2) 0 + 16777216 * block.getD (4 * g + 3) 0

/-- One MD5 operation (round `i` of 64) on the state `(a, b, c, d)`. -/
def md5Op (block : List Nat) (st : Nat × Nat × Nat × Nat) (i : Nat) :
    Nat × Nat × Nat × Nat :=
  let (a, b, c, d) := st
  let fg : Nat × Nat :=
    if i < 16 then ((b &&& c) ||| (not32 b &&& d), i)
    else if i < 32 then ((d &&& b) ||| (not32 d &&& c), (5 * i + 1) % 16)
    else if i < 48 then (b ^^^ c ^^^ d, (3 * i + 5) % 16)
    else (c ^^^ (b ||| not32 d), (7 * i) % 16)
  let tmp := (fg.1 + a + md5K.getD i 0 + md5Word block fg.2) % 4294967296
  (d, (b + rotl32 tmp (md5S.getD i 0)) % 4294967296, b, c)

/-- MD5 compression of one 64-byte block into the chaining state. -/
def md5Compress (st : Nat × Nat × Nat × Nat) (block : List Nat) :
    Nat × Nat × Nat × Nat :=
  let (a0, b0, c0, d0) := st
  let (a, b, c, d) := (List.range 64).foldl (md5Op block) (a0, b0, c0, d0)
  ((a0 + a) % 4294967296, (b0 + b) % 4294967296,
   (c0 + c) % 4294967296, (d0 + d) % 4294967296)

/-- MD5 padding: `0x80`, zeros to 56 mod 64, then the bit length as
eight little-endian bytes. -/
def md5Pad (msg : List Nat) : List Nat :=
  let zeros := (120 - (msg.length + 1) % 64) % 64
  msg ++ [0x80] ++ List.replicate zeros 0 ++ leBytes 8 ((msg.length * 8) % 2 ^ 64)

/-- Split a byte list into 64-byte blocks (structural fuel recursion; the
wrapper passes fuel `≥` the number of blocks). -/
def toBlocksFuel : Nat → List Nat → List (List Nat)
  | _, [] => []
  | 0, _ => []
  | fuel + 1, l => l.take 64 :: toBlocksFuel fuel (l.drop 64)

/-- Split a byte list into 64-byte blocks. -/
def toBlocks (l : List Nat) : List (List Nat) := toBlocksFuel l.length l

/-- The 16 MD5 digest bytes of a byte message. -/
def md5Bytes (msg : List Nat) : List Nat :=
  let st := (toBlocks (md5Pad msg)).foldl md5Compress
    (0x67452301, 0xefcdab89, 0x98badcfe, 0x10325476)
  leBytes 4 st.1 ++ leBytes 4 st.2.1 ++ leBytes 4 st.2.2.1 ++ leBytes 4 st.2.2.2

/-- Lowercase hex digit. -/
def hexChar (n : Nat) : Char :=
  if n < 10 then Char.ofNat (48 + n) else Char.ofNat (87 + n)

/-- `hexdigest()`: two lowercase hex digits per byte. -/
def hexDigest (bytes : List Nat) : String :=
  String.mk (bytes.flatMap fun b => [hexChar (b / 16), hexChar (b % 16)])

/-- `MemoryEntry.generate_id(content, source)` from
`memory-search-simple.py`: `md5(f"{source}:{content[:200]}".encode())`,
first 12 hex digits. -/
def generateId (content source : String) : String :=
  pyTake (hexDigest (md5Bytes (utf8Encode (source ++ ":" ++ pyTake content 200)))) 12

/-! ## Data model

`MemoryEntry` from `memory-search-simple.py` (dataclass): `id`, `content`,
`source`, `layer` are strings; `timestamp`, `entity`, `category` are
`Optional[str]` (the collectors below only ever store strings or `None`
in them). -/

structure MemoryEntry where
  id : String
  content : String
  source : String
  layer : String
  timestamp : Option String := none
  entity : Option String := none
  category : Option String := none
deriving DecidableEq, Repr, Inhabited

/-! ## File-system inputs (the collectors' external collaborators)

The directories the indexer scans are modelled as explicit data.  Reads
never fail in the model (the per-document `except` arms of the collectors
are dead code here); `items.json` files appear already JSON-parsed, with
records restricted to the field shapes the spec describes (each field
absent or a string). -/

/-- One `memory/*.md` daily-note file, named `<stem>.md`. -/
structure MdFile where
  stem : String
  content : String
deriving DecidableEq, Repr

def mdFileName (f : MdFile) : String := f.stem ++ ".md"

/-- `str(file_path)` for a daily note. -/
def dailyPath (f : MdFile) : String := "memory/" ++ f.stem ++ ".md"

/-- One of the fixed tacit-knowledge files (MEMORY.md, AGENTS.md,
HEARTBEAT.md) that exists, with its path and content. -/
structure TacitFile where
  path : String
  content : String
deriving DecidableEq, Repr

/-- One record of an `items.json` fact list (a JSON object).  Each field is
absent or a string, per the spec's record shape. -/
structure KgItemRec where
  id : Option String := none
  fact : Option String := none
  timestamp : Option String := none
  category : Option String := none
deriving DecidableEq, Repr

/-- An element of a fact list: a JSON object, or something else (which
`_index_knowledge_graph` skips via its `isinstance(item, dict)` check). -/
inductive KgItemVal
  | record (r : KgItemRec)
  | nondict
deriving DecidableEq, Repr

/-- Parsed top level of an `items.json` file: either a bare JSON list or a
JSON object whose `items` key wraps the list (`items.get('items', [])`;
an object without the key carries `[]`). -/
inductive KgItemsJson
  | arr (items : List KgItemVal)
  | obj (items : List KgItemVal)
deriving DecidableEq, Repr

/-- The list the indexer iterates over after shape normalization. -/
def kgItemsList : KgItemsJson → List KgItemVal
  | .arr l => l
  | .obj l => l

/-- One entity directory of the knowledge graph: optional `summary.md`
content and optional parsed `items.json`. -/
structure KgEntity where
  name : String
  summary : Option String := none
  items : Option KgItemsJson := none
deriving DecidableEq, Repr

/-- One `SKILL.md` tool-documentation file. -/
structure ToolFile where
  path : String
  content : String
deriving DecidableEq, Repr

/-- A fact's stored `timestamp` as the timeline sees it: a date string, a
numeric epoch value, or JSON null. -/
inductive TsJson
  | str (s : String)
  | num (n : Int)
  | null
deriving DecidableEq, Repr

/-- A fact record as the timeline reads it (`fact` and `timestamp` are the
only fields it uses). -/
structure TKgItem where
  fact : Option String := none
  timestamp : Option TsJson := none
deriving DecidableEq, Repr

/-- Element of a timeline-side fact list. A non-object element makes
`item.get` raise, aborting the rest of that file's loop. -/
inductive TKgItemVal
  | record (r : TKgItem)
  | nondict
deriving DecidableEq, Repr

/-- Timeline-side top level of an `items.json` file: a bare JSON list, or
a JSON object wrapping the list under the `items` key — on which
`items[-5:]` raises `TypeError` at once, so the wrapped list is never
read by the timeline (the payload is kept in the model only to talk about
it). -/
inductive TKgJson
  | arr (items : List TKgItemVal)
  | obj (items : List TKgItemVal)
deriving DecidableEq, Repr

/-- One `items.json` file as found by the timeline's `rglob`, with its
parent directory name (the owning entity) and its file modification time
in hours since the epoch. -/
structure TKgFile where
  path : String
  parentName : String
  json : TKgJson
  mtimeH : ℚ
deriving DecidableEq, Repr

/-- The world of documents both tools read.  `areas` maps an area-type
name to its entity directories (the indexer walks the five fixed names);
`kgItemFiles` is the same tree's `items.json` files as the timeline's
`rglob('items.json')` finds them. -/
structure FS where
  memoryFiles : List MdFile := []
  tacitFiles : List TacitFile := []
  areas : String → List KgEntity := fun _ => []
  toolFiles : List ToolFile := []
  kgItemFiles : List TKgFile := []

/-! ## Section splitting and metadata extraction -/

/-- Does this suffix start with `#{1,3}\s` (one to three `#` then
whitespace)?  Pattern order makes four or more `#` fail, as the regex
does. -/
def isHeadlineStart (l : List Char) : Bool :=
  match l with
  | '#' :: '#' :: '#' :: c :: _ => pyIsWs c
  | '#' :: '#' :: c :: _ => pyIsWs c
  | '#' :: c :: _ => pyIsWs c
  | _ => false

/-- `re.split(r'\n(?=#{1,3}\s)', content)`: cut at every newline that is
immediately followed by a headline; the newline is consumed. -/
def splitRawSections : List Char → List (List Char)
  | [] => [[]]
  | c :: rest =>
    let r := splitRawSections rest
    if c == '\n' && isHeadlineStart rest then
      [] :: r
    else
      match r with
      | [] => [[c]]
      | h :: t => (c :: h) :: t

/-- `_split_by_sections`: split, strip each part, keep the non-empty. -/
def splitBySections (content : String) : List String :=
  (((splitRawSections content.data).map fun l => pyStrip (String.mk l)).filter
    fun s => s ≠ "")

def isAsciiDigit (c : Char) : Bool := 48 ≤ c.toNat && c.toNat ≤ 57

/-- `_extract_date_from_filename`: `re.match(r'(\d{4}-\d{2}-\d{2})', name)`
anchored at the start; the matched 10 characters on success. -/
def extractDateFromFilename (filename : String) : Option String :=
  match filename.data with
  | y1 :: y2 :: y3 :: y4 :: s1 :: m1 :: m2 :: s2 :: d1 :: d2 :: _ =>
    if isAsciiDigit y1 && isAsciiDigit y2 && isAsciiDigit y3 && isAsciiDigit y4 &&
        s1 == '-' && isAsciiDigit m1 && isAsciiDigit m2 && s2 == '-' &&
        isAsciiDigit d1 && isAsciiDigit d2 then
      some (String.mk [y1, y2, y3, y4, s1, m1, m2, s2, d1, d2])
    else none
  | _ => none

/-- Python `str.lower()` (ASCII part, which is all the sources use). -/
def pyLower (s : String) : String := String.mk (s.data.map Char.toLower)

/-- `_extract_category_from_section`: first of the first three lines that
starts with `#`, with `#`s stripped from the left, stripped, lowered. -/
def extractCategoryFromSection (sec : String) : Option String :=
  ((pySplitNl sec).take 3).findSome? fun line =>
    if pyStartsWith line "#" then
      some (pyLower (pyStrip (String.mk (line.data.dropWhile (· == '#')))))
    else none

/-! ## The four collectors and `index_all` -/

/-- `sorted(MEMORY_DIR.glob("*.md"))`: iterate daily notes in filename
order (stable ascending, as Python's sort). -/
def sortedByName (files : List MdFile) : List MdFile :=
  files.insertionSort fun f g => pyLe (mdFileName f) (mdFileName g) = true

/-- `_index_daily_notes`: split each file into sections, keep sections of
stripped length `≥ 50`, derive id/date/category. -/
def indexDailyNotes (fs : FS) : List MemoryEntry :=
  (sortedByName fs.memoryFiles).flatMap fun f =>
    (splitBySections f.content).filterMap fun sec =>
      if (pyStrip sec).length < 50 then none
      else some
        { id := generateId sec (dailyPath f)
          content := sec
          source := dailyPath f
          layer := "daily"
          timestamp := extractDateFromFilename (mdFileName f)
          category := extractCategoryFromSection sec }

/-- `_index_tacit_knowledge`: same splitting over the fixed tacit files,
threshold 30, no timestamp. -/
def indexTacit (fs : FS) : List MemoryEntry :=
  fs.tacitFiles.flatMap fun tf =>
    (splitBySections tf.content).filterMap fun sec =>
      if (pyStrip sec).length < 30 then none
      else some
        { id := generateId sec tf.path
          content := sec
          source := tf.path
          layer := "tacit"
          category := extractCategoryFromSection sec }

/-- The fixed area-type taxonomy `_index_knowledge_graph` walks. -/
def areaTypes : List String := ["people", "companies", "projects", "skills", "workflows"]

def kgSummaryPath (areaType entName : String) : String :=
  "life/areas/" ++ areaType ++ "/" ++ entName ++ "/summary.md"

def kgItemsPath (areaType entName : String) : String :=
  "life/areas/" ++ areaType ++ "/" ++ entName ++ "/items.json"

/-- `_index_knowledge_graph`: per entity an optional summary entry, then
one entry per dict record with a truthy `fact`; the record's own `id`
replaces the generated one when supplied, `category` defaults to
`"fact"`. -/
def indexKnowledgeGraph (fs : FS) : List MemoryEntry :=
  areaTypes.flatMap fun areaType =>
    (fs.areas areaType).flatMap fun ent =>
      (match ent.summary with
       | some content =>
         [{ id := generateId content (kgSummaryPath areaType ent.name)
            content := content
            source := kgSummaryPath areaType ent.name
            layer := "knowledge_graph"
            entity := some ent.name
            category := some ("summary:" ++ areaType) }]
       | none => []) ++
      (match ent.items with
       | none => []
       | some j =>
         (kgItemsList j).filterMap fun v =>
           match v with
           | .nondict => none
           | .record item =>
             let factText := item.fact.getD ""
             if factText = "" then none
             else some
               { id := item.id.getD (generateId factText (kgItemsPath areaType ent.name))
                 content := factText
                 source := kgItemsPath areaType ent.name
                 layer := "knowledge_graph"
                 timestamp := item.timestamp
                 entity := some ent.name
                 category := some (item.category.getD "fact") })

/-- `_index_tools`: one entry per `SKILL.md` file found under the tools
root. -/
def indexTools (fs : FS) : List MemoryEntry :=
  fs.toolFiles.map fun tf =>
    { id := generateId tf.content tf.path
      content := tf.content
      source := tf.path
      layer := "tools"
      category := some "skill" }

/-- `index_all`: the four collectors' entries concatenated in fixed
order. -/
def indexAllEntries (fs : FS) : List MemoryEntry :=
  indexDailyNotes fs ++ indexTacit fs ++ indexKnowledgeGraph fs ++ indexTools fs

/-! ## Query engine (`SimpleMemorySearcher.search`, `--ids` lookup)

Cosine similarities are floating-point values computed by scikit-learn
(an external collaborator).  Only their linear order and their appearance
as `relevance` matter to the engine, so a similarity vector is modelled as
an arbitrary `List ℚ` (one score per entry row) and the theorems quantify
over it.  `argsort()[::-1]` sorts indices ascending by score and reverses;
numpy's tie order is unspecified, the model fixes the (stable) merge-sort
one. -/

/-- The result-record shape
`{id, content, metadata: {source, layer, timestamp, entity, category}, relevance}`. -/
structure ResultMeta where
  source : String
  layer : String
  timestamp : String
  entity : String
  category : String
deriving DecidableEq, Repr

structure SearchResult where
  id : String
  content : String
  metadata : ResultMeta
  relevance : ℚ
deriving DecidableEq, Repr

/-- Wrapping of one entry into a result record: the optional metadata
fields pass through `x or ''`. -/
def mkSearchResult (e : MemoryEntry) (score : ℚ) : SearchResult :=
  { id := e.id
    content := e.content
    metadata :=
      { source := e.source
        layer := e.layer
        timestamp := pyOrEmpty e.timestamp
        entity := pyOrEmpty e.entity
        category := pyOrEmpty e.category }
    relevance := score }

/-- `similarities.argsort()[::-1]`: indices of the score vector, sorted
ascending by score, reversed.  (numpy's tie order is unspecified; the
model fixes the stable one.  Insertion sort is used because it reduces
inside the kernel.) -/
def argsortDesc (sims : List ℚ) : List Nat :=
  ((List.range sims.length).insertionSort fun i j =>
    sims.getD i 0 ≤ sims.getD j 0).reverse

/-- The candidate scan order: each ranked index paired with its entry and
score (`entries[idx]`, `similarities[idx]`). -/
def rankedPairs (sims : List ℚ) (entries : List MemoryEntry) :
    List (MemoryEntry × ℚ) :=
  (argsortDesc sims).filterMap fun i =>
    entries[i]?.map fun e => (e, sims.getD i 0)

/-- The three in-loop filters of `search`, exactly as the source tests
them (`if layer and entry.layer != layer: continue`, etc.).  `none` plays
Python's `None`; an empty-string argument is falsy like `None`. -/
def passesFilters (layerF sinceF entityF : Option String) (e : MemoryEntry) : Bool :=
  !(pyTruthy layerF && e.layer != layerF.getD "") &&
  !(pyTruthy sinceF && pyTruthy e.timestamp &&
      pyLt (pyOrEmpty e.timestamp) (sinceF.getD "")) &&
  !(pyTruthy entityF && e.entity != some (entityF.getD ""))

/-- The accumulation loop of `search`: walk the ranked candidates, skip
non-matching entries, append matches, and break as soon as
`len(results) >= limit` right after an append.  `limitLeft` is
`limit - len(results)`, an `Int` because the CLI accepts any int. -/
def searchScan (layerF sinceF entityF : Option String) :
    Int → List (MemoryEntry × ℚ) → List SearchResult
  | _, [] => []
  | limitLeft, (e, score) :: rest =>
    if passesFilters layerF sinceF entityF e then
      if limitLeft ≤ 1 then [mkSearchResult e score]
      else mkSearchResult e score ::
        searchScan layerF sinceF entityF (limitLeft - 1) rest
    else searchScan layerF sinceF entityF limitLeft rest

/-- `search` after the index is loaded and the query vectorized: rank all
entries by similarity descending, then filter and truncate in one scan. -/
def searchRank (sims : List ℚ) (entries : List MemoryEntry) (limit : Int)
    (layerF sinceF entityF : Option String) : List SearchResult :=
  searchScan layerF sinceF entityF limit (rankedPairs sims entries)

/-- A Python exception escaping the engine. -/
inductive PyErr
  | noneTypeAttributeErr
deriving DecidableEq, Repr

/-- The state `search` runs against: the document world and the persisted
index artifact (its entry sequence), if one exists. -/
structure World where
  fs : FS
  persisted : Option (List MemoryEntry) := none

/-- The full `search` entry point: `load_index()`, on failure
`index_all()` (which persists only a non-empty build) and a reload whose
result is ignored; then `self.indexer.vectorizer.transform(...)` — an
`AttributeError` on `None` when both loads failed.  `simsOf` abstracts
vectorizer + cosine-similarity (scikit-learn). -/
def searchOp (w : World) (simsOf : String → List ℚ) (query : String)
    (limit : Int) (layerF sinceF entityF : Option String) :
    Except PyErr (List SearchResult) :=
  let loaded : Option (List MemoryEntry) :=
    match w.persisted with
    | some es => some es
    | none =>
      let built := indexAllEntries w.fs
      if built.isEmpty then none else some built
  match loaded with
  | none => .error .noneTypeAttributeErr
  | some es => .ok (searchRank (simsOf query) es limit layerF sinceF entityF)

/-- The `--ids` direct-lookup path of `main`: walk the loaded entries in
storage order and wrap each whose id is among the requested ones, with
`relevance = 1.0`. -/
def getByIds (requested : List String) : List MemoryEntry → List SearchResult
  | [] => []
  | e :: rest =>
    if requested.contains e.id then
      mkSearchResult e 1 :: getByIds requested rest
    else getByIds requested rest

/-- Python `s.split(',')`. -/
def splitOnComma : List Char → List (List Char)
  | [] => [[]]
  | c :: rest =>
    let r := splitOnComma rest
    if c == ',' then [] :: r
    else
      match r with
      | [] => [[c]]
      | h :: t => (c :: h) :: t

/-- `--ids` argument parsing: split on commas, strip each piece. -/
def parseIdsArg (s : String) : List String :=
  (splitOnComma s.data).map fun l => pyStrip (String.mk l)

/-! ## Calendar arithmetic

`datetime` instants are modelled at day granularity through a day number
(days since 1970-01-01, proleptic Gregorian — the standard civil-calendar
conversions), because every anchor the timeline can resolve is the
midnight of a parsed `YYYY-MM-DD` date.  `anchor ± timedelta(hours=h)`
then lands on day `(24*z ∓∓ h).fdiv 24` (floor), which is exactly the
date `strftime('%Y-%m-%d')` prints.  File modification instants, which
need finer granularity, are rational hours since the epoch. -/

/-- Day number of a civil date (days since 1970-01-01). -/
def daysFromCivil : Int × Int × Int → Int
  | (y, m, d) =>
    let y2 := if m ≤ 2 then y - 1 else y
    let era := y2.fdiv 400
    let yoe := y2 - era * 400
    let mp := (m + 9) % 12
    let doy := (153 * mp + 2).fdiv 5 + d - 1
    let doe := yoe * 365 + yoe.fdiv 4 - yoe.fdiv 100 + doy
    era * 146097 + doe - 719468

/-- Civil date of a day number. -/
def civilFromDays (z0 : Int) : Int × Int × Int :=
  let z := z0 + 719468
  let era := z.fdiv 146097
  let doe := z - era * 146097
  let yoe := (doe - doe.fdiv 1460 + doe.fdiv 36524 - doe.fdiv 146096).fdiv 365
  let y := yoe + era * 400
  let doy := doe - (365 * yoe + yoe.fdiv 4 - yoe.fdiv 100)
  let mp := (5 * doy + 2).fdiv 153
  let d := doy - (153 * mp + 2).fdiv 5 + 1
  let m := mp + (if mp < 10 then 3 else -9)
  (if m ≤ 2 then y + 1 else y, m, d)

def digitChar (n : Nat) : Char := Char.ofNat (48 + n)

/-- Decimal digits of `n` (fuel-structural for kernel evaluation). -/
def natDigits : Nat → Nat → List Char
  | 0, _ => []
  | fuel + 1, n =>
    if n < 10 then [digitChar n]
    else natDigits fuel (n / 10) ++ [digitChar (n % 10)]

/-- Python `str(n)` for an int. -/
def intStr (n : Int) : String :=
  if n < 0 then String.mk ('-' :: natDigits (n.natAbs + 1) n.natAbs)
  else String.mk (natDigits (n.toNat + 1) n.toNat)

/-- Zero-padded decimal of width `w` (`strftime` field). -/
def padNat (w n : Nat) : List Char :=
  let ds := natDigits (n + 1) n
  List.replicate (w - ds.length) '0' ++ ds

/-- `strftime('%Y-%m-%d')` of the midnight of day number `z`. -/
def dateStrOfDays (z : Int) : String :=
  let ymd := civilFromDays z
  String.mk (padNat 4 ymd.1.toNat ++ '-' :: padNat 2 ymd.2.1.toNat ++
    '-' :: padNat 2 ymd.2.2.toNat)

def isLeapYear (y : Int) : Bool :=
  y % 4 == 0 && (y % 100 != 0 || y % 400 == 0)

def daysInMonth (y m : Int) : Int :=
  if m == 2 then (if isLeapYear y then 29 else 28)
  else if m == 4 || m == 6 || m == 9 || m == 11 then 30
  else 31

def digitVal (c : Char) : Int := (c.toNat : Int) - 48

/-- `datetime.strptime(s, '%Y-%m-%d')` for a 10-character string (the only
shape the guarded call sites can pass): strict `dddd-dd-dd` with calendar
validation, `None` on `ValueError`.  The `--date` path's `fromisoformat`
is modelled on the same day-granularity subset. -/
def parseYMD (s : String) : Option (Int × Int × Int) :=
  match s.data with
  | [y1, y2, y3, y4, s1, m1, m2, s2, d1, d2] =>
    if isAsciiDigit y1 && isAsciiDigit y2 && isAsciiDigit y3 && isAsciiDigit y4 &&
        s1 == '-' && isAsciiDigit m1 && isAsciiDigit m2 && s2 == '-' &&
        isAsciiDigit d1 && isAsciiDigit d2 then
      let y := 1000 * digitVal y1 + 100 * digitVal y2 + 10 * digitVal y3 + digitVal y4
      let m := 10 * digitVal m1 + digitVal m2
      let d := 10 * digitVal d1 + digitVal d2
      if 1 ≤ y && 1 ≤ m && m ≤ 12 && 1 ≤ d && d ≤ daysInMonth y m then
        some (y, m, d)
      else none
    else none
  | _ => none

/-! ## Timeline engine (`memory-timeline.py: get_timeline`) -/

/-- The anchor-context dict built in the by-id branch
(`{'content': ..., 'metadata': {'source': ..., 'timestamp': ...}}`). -/
structure AnchorEntryCtx where
  content : String
  source : String
  timestamp : Option String
deriving DecidableEq, Repr

/-- `anchor_context`: the by-id branch stores its own small dict, the
by-query branch stores the first search result verbatim. -/
inductive AnchorCtx
  | fromEntry (c : AnchorEntryCtx)
  | fromResult (r : SearchResult)
deriving DecidableEq, Repr

/-- The `time_window` dict (`end` is a Lean keyword, hence `stop`). -/
structure TimeWindow where
  start : String
  stop : String
  hoursBefore : Int
  hoursAfter : Int
deriving DecidableEq, Repr

/-- One timeline event `{date, type, event, file, entity?}`; `date` keeps
the heterogeneous stored value (string date, numeric epoch, or null). -/
structure TEvent where
  date : TsJson
  type : String
  event : String
  file : String
  entity : Option String := none
deriving DecidableEq, Repr

/-- The timeline result dict. -/
structure Timeline where
  anchor : Option AnchorCtx
  window : TimeWindow
  events : List TEvent
deriving DecidableEq, Repr

/-- `md_file.stem.count('-')`. -/
def hyphenCount (s : String) : Nat := s.data.countP (· == '-')

/-- One daily-note headline event: dated at the file's stem, text
`line.strip('# ')`. -/
def mkDailyEvent (f : MdFile) (line : String) : TEvent :=
  { date := .str f.stem
    type := "daily_note"
    event := pyStripChars ['#', ' '] line
    file := dailyPath f }

/-- Daily-note event gathering: files with exactly two hyphens in the stem
whose stem lies in `[start_date, end_date]` (string comparison), one event
per line starting with `##`. -/
def dailyEvents (fs : FS) (startD endD : String) : List TEvent :=
  (sortedByName fs.memoryFiles).flatMap fun f =>
    if hyphenCount f.stem == 2 && pyLe startD f.stem && pyLe f.stem endD then
      (pySplitNl f.content).filterMap fun line =>
        if pyStartsWith line "##" then some (mkDailyEvent f line) else none
    else []

/-- One knowledge-graph fact event: dated by the record's own stored
timestamp (`item.get('timestamp', '')`), tagged with the owning entity. -/
def mkKgEvent (file : TKgFile) (r : TKgItem) : TEvent :=
  { date := match r.timestamp with | none => .str "" | some v => v
    type := "knowledge_graph"
    event := r.fact.getD ""
    file := file.path
    entity := some file.parentName }

/-- Python `l[-5:]`. -/
def takeLast (n : Nat) (l : List α) : List α := l.drop (l.length - n)

/-- Sequential processing of the last five items: a non-dict item makes
`item.get` raise `TypeError`, aborting the rest of this file's loop while
keeping the events already appended. -/
def kgFileEventsGo (file : TKgFile) : List TKgItemVal → List TEvent
  | [] => []
  | .nondict :: _ => []
  | .record r :: rest => mkKgEvent file r :: kgFileEventsGo file rest

/-- Knowledge-graph event gathering: every `items.json` under the tree
whose modification time lies in the instant window contributes its last
five items; a top-level JSON object makes `items[-5:]` raise `TypeError`,
swallowed by the bare `except`, so such a file contributes nothing. -/
def kgEvents (fs : FS) (lo hi : ℚ) : List TEvent :=
  fs.kgItemFiles.flatMap fun file =>
    if lo ≤ file.mtimeH && file.mtimeH ≤ hi then
      match file.json with
      | .obj _ => []
      | .arr items => kgFileEventsGo file (takeLast 5 items)
    else []

/-- `sort_key`: a numeric date is coerced to its decimal string, `None`
and `''` to `''`. -/
def sortKeyEvent (e : TEvent) : String :=
  match e.date with
  | .num n => intStr n
  | .str s => s
  | .null => ""

/-- `timeline_events.sort(key=sort_key)`: stable ascending by key. -/
def sortEvents (evs : List TEvent) : List TEvent :=
  evs.insertionSort fun a b => pyLe (sortKeyEvent a) (sortKeyEvent b) = true

/-- The window-and-events phase of `get_timeline`, once an anchor day is
resolved: day-granularity string window for daily notes, instant window
for knowledge-graph modification times, union of events sorted by date
key. -/
def buildTimeline (fs : FS) (anchorDays : Int) (ctx : Option AnchorCtx)
    (hb ha : Int) : Timeline :=
  let startD := dateStrOfDays ((anchorDays * 24 - hb).fdiv 24)
  let endD := dateStrOfDays ((anchorDays * 24 + ha).fdiv 24)
  { anchor := ctx
    window := { start := startD, stop := endD, hoursBefore := hb, hoursAfter := ha }
    events := sortEvents
      (dailyEvents fs startD endD ++
        kgEvents fs ((anchorDays * 24 - hb : Int) : ℚ) ((anchorDays * 24 + ha : Int) : ℚ)) }

/-- First entry with the given id (`for entry in entries: ... break`). -/
def findEntry (eid : String) : List MemoryEntry → Option MemoryEntry
  | [] => none
  | e :: rest => if e.id == eid then some e else findEntry eid rest

/-- Outcome of the anchor-resolution phase. -/
inductive AnchorOutcome
  | earlyEmpty
  | noAnchor
  | resolved (days : Int) (ctx : Option AnchorCtx)
deriving DecidableEq, Repr

/-- The anchor-resolution phase of `get_timeline`: by id (strip `mem-`,
load the persisted index or return `{}` early, first matching entry,
timestamp of length 10 parsed), else by explicit date (parse failure
returns `{}` early), else by query (`search(query, limit=1)`, which may
itself raise; first result's metadata timestamp of length 10 parsed).
`earlyEmpty` and `noAnchor` both end in an empty result dict. -/
def resolveAnchor (w : World) (simsOf : String → List ℚ)
    (memoryId date query : Option String) : Except PyErr AnchorOutcome :=
  if pyTruthy memoryId then
    let cleanId := pyReplace (memoryId.getD "") "mem-" ""
    match w.persisted with
    | none => .ok .earlyEmpty
    | some entries =>
      match findEntry cleanId entries with
      | none => .ok .noAnchor
      | some e =>
        if pyTruthy e.timestamp && (e.timestamp.getD "").length == 10 then
          match parseYMD (e.timestamp.getD "") with
          | some ymd => .ok (.resolved (daysFromCivil ymd)
              (some (.fromEntry ⟨e.content, e.source, e.timestamp⟩)))
          | none => .ok .noAnchor
        else .ok .noAnchor
  else if pyTruthy date then
    match parseYMD (date.getD "") with
    | none => .ok .earlyEmpty
    | some ymd => .ok (.resolved (daysFromCivil ymd) none)
  else if pyTruthy query then
    match searchOp w simsOf (query.getD "") 1 none none none with
    | .error e => .error e
    | .ok [] => .ok .noAnchor
    | .ok (r :: _) =>
      if r.metadata.timestamp ≠ "" && r.metadata.timestamp.length == 10 then
        match parseYMD r.metadata.timestamp with
        | some ymd => .ok (.resolved (daysFromCivil ymd) (some (.fromResult r)))
        | none => .ok .noAnchor
      else .ok .noAnchor
  else .ok .noAnchor

/-- `get_timeline`: resolve an anchor; without one return the empty dict
(`{}`, modelled `none`); with one build the window and gather events. -/
def getTimeline (w : World) (simsOf : String → List ℚ)
    (memoryId date query : Option String) (hb ha : Int) :
    Except PyErr (Option Timeline) :=
  match resolveAnchor w simsOf memoryId date query with
  | .error e => .error e
  | .ok .earlyEmpty => .ok none
  | .ok .noAnchor => .ok none
  | .ok (.resolved days ctx) => .ok (some (buildTimeline w.fs days ctx hb ha))

/-! ## Spec-side predicates and concrete worlds used by the theorems -/

/-- The filter predicate in the spec's own words: an entry passes a given
layer filter iff its layer matches; it is excluded by a given `since`
filter iff its timestamp is present (in Python's sense: non-empty) and
lexically less than `since` — entries with no timestamp pass; it passes a
given entity filter iff its entity matches.  This is a second definition,
written from the claim, to be compared with the source-derived
`passesFilters`. -/
def specPasses (layerF sinceF entityF : Option String) (e : MemoryEntry) : Bool :=
  (if pyTruthy layerF then e.layer == layerF.getD "" else true) &&
  (if pyTruthy sinceF then
      !(pyTruthy e.timestamp && pyLt (pyOrEmpty e.timestamp) (sinceF.getD ""))
    else true) &&
  (if pyTruthy entityF then e.entity == some (entityF.getD "") else true)

/-- A world whose knowledge graph carries two fact records with the same
externally supplied id. -/
def fsDupIds : FS :=
  { areas := fun a =>
      if a = "people" then
        [{ name := "Alice",
           items := some (.arr
             [.record { id := some "dup", fact := some "Alice joined the team" },
              .record { id := some "dup", fact := some "Alice left the team" }]) }]
      else [] }

/-- The first entry the duplicate-id build produces. -/
def dupEntry : MemoryEntry :=
  { id := "dup", content := "Alice joined the team",
    source := kgItemsPath "people" "Alice", layer := "knowledge_graph",
    entity := some "Alice", category := some "fact" }

/-- The spec's concrete scenario: two daily files around 2026-01-31
(day number 20484). -/
def fsC8 : FS :=
  { memoryFiles :=
      [{ stem := "2026-01-30",
         content := "## Discussed deployment plan\nsome deployment text" },
       { stem := "2026-02-01",
         content := "## Fixed the bug\nmore text here" }] }

/-- The fact list of a timeline-side `items.json` under either shape (the
claim speaks of both bare lists and object-wrapped lists). -/
def tkgItems : TKgJson → List TKgItemVal
  | .arr l => l
  | .obj l => l

/-- A sample fact record. -/
def aliceFact : TKgItem :=
  { fact := some "Alice joined the team", timestamp := some (.str "2026-03-01") }

/-- A world with one object-wrapped fact list whose file was modified
right at the anchor instant of 2026-01-31 (hour 491616). -/
def fsWrapped : FS :=
  { kgItemFiles :=
      [{ path := "life/areas/people/Alice/items.json",
         parentName := "Alice",
         json := .obj [.record aliceFact],
         mtimeH := 491616 }] }

/-- A mixed knowledge-graph tree: one bare-list fact file and one
object-wrapped fact file, both modified at the anchor instant. -/
def fsMixed : FS :=
  { kgItemFiles :=
      [{ path := "life/areas/people/Alice/items.json",
         parentName := "Alice",
         json := .arr [.record aliceFact],
         mtimeH := 491616 },
       { path := "life/areas/people/Bob/items.json",
         parentName := "Bob",
         json := .obj [.record aliceFact],
         mtimeH := 491616 }] }

/-! ## Lemmas about the search scan -/

/-- Whatever the limit, the scan keeps a sublist of the wrapped candidate
sequence (it only skips and truncates). -/
theorem searchScan_sublist (layerF sinceF entityF : Option String)
    (limit : Int) (l : List (MemoryEntry × ℚ)) :
    (searchScan layerF sinceF entityF limit l).Sublist
      (l.map fun p => mkSearchResult p.1 p.2) := by
  induction l generalizing limit with
  | nil => simp [searchScan]
  | cons p rest ih =>
    obtain ⟨e, score⟩ := p
    rw [searchScan]
    cases hp : passesFilters layerF sinceF entityF e with
    | false =>
      simpa using (ih limit).cons (mkSearchResult e score)
    | true =>
      by_cases hl : limit ≤ 1
      · simp only [hl, if_true, List.map_cons]
        exact List.cons_sublist_cons.mpr (List.nil_sublist _)
      · simp only [hl, if_false, List.map_cons]
        exact List.cons_sublist_cons.mpr (ih (limit - 1))

/-- For a positive limit, the break-after-append loop of `search` is
filter-then-take over the ranked candidates. -/
theorem searchScan_eq_take_filter (layerF sinceF entityF : Option String)
    (limit : Int) (hlim : 1 ≤ limit) (l : List (MemoryEntry × ℚ)) :
    searchScan layerF sinceF entityF limit l =
      ((l.filter fun p => passesFilters layerF sinceF entityF p.1).map
        fun p => mkSearchResult p.1 p.2).take limit.toNat := by
  induction l generalizing limit with
  | nil => simp [searchScan]
  | cons p rest ih =>
    obtain ⟨e, score⟩ := p
    rw [searchScan]
    cases hp : passesFilters layerF sinceF entityF e with
    | false =>
      rw [List.filter_cons_of_neg (by simpa using hp)]
      exact ih limit hlim
    | true =>
      rw [List.filter_cons_of_pos (by simpa using hp), List.map_cons]
      by_cases hl : limit ≤ 1
      · have h1 : limit = 1 := le_antisymm hl hlim
        subst h1
        simp
      · have h2 : (1 : Int) ≤ limit - 1 := by omega
        have h3 : limit.toNat = (limit - 1).toNat + 1 := by omega
        simp only [hl, if_false]
        rw [ih (limit - 1) h2, h3, List.take_succ_cons]
        exact if_pos trivial

/-- The ranked candidate sequence carries non-increasing scores. -/
theorem rankedPairs_pairwise (sims : List ℚ) (entries : List MemoryEntry) :
    (rankedPairs sims entries).Pairwise fun p q => q.2 ≤ p.2 := by
  haveI : IsTotal Nat fun i j => sims.getD i 0 ≤ sims.getD j 0 :=
    ⟨fun a b => le_total _ _⟩
  haveI : IsTrans Nat fun i j => sims.getD i 0 ≤ sims.getD j 0 :=
    ⟨fun a b c => le_trans⟩
  have hsorted := List.sorted_insertionSort
    (fun i j => sims.getD i 0 ≤ sims.getD j 0) (List.range sims.length)
  have hrev : (argsortDesc sims).Pairwise fun i j =>
      sims.getD j 0 ≤ sims.getD i 0 := by
    rw [argsortDesc, List.pairwise_reverse]
    exact hsorted
  rw [rankedPairs, List.pairwise_filterMap]
  refine hrev.imp ?_
  intro i j hij
  intro b hb b' hb'
  simp only [Option.mem_def, Option.map_eq_some'] at hb hb'
  obtain ⟨eb, _, rfl⟩ := hb
  obtain ⟨eb', _, rfl⟩ := hb'
  exact hij

/-- Every ranked candidate's entry is one of the index entries. -/
theorem rankedPairs_mem (sims : List ℚ) (entries : List MemoryEntry)
    (p : MemoryEntry × ℚ) (hp : p ∈ rankedPairs sims entries) :
    p.1 ∈ entries := by
  rw [rankedPairs, List.mem_filterMap] at hp
  obtain ⟨i, _, hi⟩ := hp
  simp only [Option.map_eq_some'] at hi
  obtain ⟨e, he, rfl⟩ := hi
  obtain ⟨hlt, heq⟩ := List.getElem?_eq_some_iff.mp he
  exact heq ▸ List.getElem_mem hlt

/-! ## C1 -/

/-- C1 (amended to a positive limit): for every similarity vector, entry
sequence, limit `N ≥ 1` and filter combination, `search` returns at most
`N` result records, and their relevance scores are non-increasing in
result order. -/
theorem c1_search_at_most_limit_and_nonincreasing
    (sims : List ℚ) (entries : List MemoryEntry) (limit : Int)
    (layerF sinceF entityF : Option String) (hlim : 1 ≤ limit) :
    ((searchRank sims entries limit layerF sinceF entityF).length : Int) ≤ limit ∧
    (searchRank sims entries limit layerF sinceF entityF).Pairwise
      (fun a b => b.relevance ≤ a.relevance) := by
  constructor
  · rw [searchRank, searchScan_eq_take_filter _ _ _ _ hlim]
    have h := List.length_take_le limit.toNat
      (((rankedPairs sims entries).filter
        fun p => passesFilters layerF sinceF entityF p.1).map
        fun p => mkSearchResult p.1 p.2)
    omega
  · have hpair : ((rankedPairs sims entries).map
        fun p => mkSearchResult p.1 p.2).Pairwise
        (fun a b => b.relevance ≤ a.relevance) :=
      (rankedPairs_pairwise sims entries).map _ (fun a b h => h)
    exact hpair.sublist (searchScan_sublist layerF sinceF entityF limit _)

/-- C1 counterexample to the claim as stated (`every limit N`): with
`limit = 0` and one candidate passing the filters, `search` still returns
one result, because the `len(results) >= limit` break is only checked
after an append. -/
theorem c1_counterexample :
    ¬ (((searchRank [(1 : ℚ)]
      [{ id := "e1", content := "body one", source := "memory/a.md",
         layer := "daily" }] 0 none none none).length : Int) ≤ 0) := by
  decide

/-- C1 witness: the amended theorem applied at a concrete input. -/
theorem c1_witness :
    (1 : Int) ≤ 2 ∧
    (((searchRank [(1 : ℚ), 3]
      [{ id := "w1", content := "alpha", source := "memory/w.md", layer := "daily" },
       { id := "w2", content := "beta", source := "MEMORY.md", layer := "tacit" }]
      2 none none none).length : Int) ≤ 2 ∧
    (searchRank [(1 : ℚ), 3]
      [{ id := "w1", content := "alpha", source := "memory/w.md", layer := "daily" },
       { id := "w2", content := "beta", source := "MEMORY.md", layer := "tacit" }]
      2 none none none).Pairwise (fun a b => b.relevance ≤ a.relevance)) :=
  ⟨by decide, c1_search_at_most_limit_and_nonincreasing _ _ _ _ _ _ (by decide)⟩

/-! ## C2 -/


/-- The source's in-loop skip conditions coincide with the spec's
exclusion characterization. -/
theorem passesFilters_eq_specPasses (layerF sinceF entityF : Option String)
    (e : MemoryEntry) :
    passesFilters layerF sinceF entityF e = specPasses layerF sinceF entityF e := by
  unfold passesFilters specPasses
  cases pyTruthy layerF <;> cases pyTruthy sinceF <;> cases pyTruthy entityF <;>
    simp [bne]

/-- C2 (amended to a positive limit): for every limit `N ≥ 1`, search
results are exactly the ranked candidate list filtered — post-ranking —
by the spec's predicate (excluded by `since` iff timestamp present and
lexically below it, no-timestamp entries pass, layer/entity excluded
exactly on mismatch), truncated to the first `N` matches. -/
theorem c2_filters_characterized (sims : List ℚ) (entries : List MemoryEntry)
    (limit : Int) (layerF sinceF entityF : Option String) (hlim : 1 ≤ limit) :
    searchRank sims entries limit layerF sinceF entityF =
      (((rankedPairs sims entries).filter
        fun p => specPasses layerF sinceF entityF p.1).map
        fun p => mkSearchResult p.1 p.2).take limit.toNat := by
  rw [searchRank, searchScan_eq_take_filter _ _ _ _ hlim]
  have h : (fun p : MemoryEntry × ℚ => passesFilters layerF sinceF entityF p.1) =
      fun p => specPasses layerF sinceF entityF p.1 :=
    funext fun p => passesFilters_eq_specPasses _ _ _ _
  rw [h]

/-- C2 counterexample to "limit bounds the number of matching results":
at `limit = 0` one matching result is still returned. -/
theorem c2_counterexample :
    searchRank [(2 : ℚ)]
      [{ id := "f1", content := "note body", source := "memory/b.md",
         layer := "tacit" }] 0 none none none ≠
      (((rankedPairs [(2 : ℚ)]
        [{ id := "f1", content := "note body", source := "memory/b.md",
           layer := "tacit" }]).filter
        fun p => specPasses none none none p.1).map
        fun p => mkSearchResult p.1 p.2).take (0 : Int).toNat := by
  decide

/-- C2 witness: the amended theorem applied at a concrete input with a
`since` filter (the dated entry below `since` is excluded, the undated
one passes). -/
theorem c2_witness :
    (1 : Int) ≤ 3 ∧
    searchRank [(2 : ℚ), 1]
      [{ id := "g1", content := "old note", source := "memory/2020-01-01.md",
         layer := "daily", timestamp := some "2020-01-01" },
       { id := "g2", content := "tacit note", source := "MEMORY.md",
         layer := "tacit" }] 3 none (some "2024-01-01") none =
      (((rankedPairs [(2 : ℚ), 1]
        [{ id := "g1", content := "old note", source := "memory/2020-01-01.md",
           layer := "daily", timestamp := some "2020-01-01" },
         { id := "g2", content := "tacit note", source := "MEMORY.md",
           layer := "tacit" }]).filter
        fun p => specPasses none (some "2024-01-01") none p.1).map
        fun p => mkSearchResult p.1 p.2).take (3 : Int).toNat :=
  ⟨by decide, c2_filters_characterized _ _ _ _ _ _ (by decide)⟩

/-! ## C3 -/

/-- C3: the direct-lookup path returns exactly the loaded entries whose id
is among the requested ones, in index storage order, each with
`relevance = 1.0`; a request matching no entry returns the empty list. -/
theorem c3_get_by_ids (requested : List String) (entries : List MemoryEntry) :
    getByIds requested entries =
      ((entries.filter fun e => requested.contains e.id).map
        fun e => mkSearchResult e 1) ∧
    (∀ r ∈ getByIds requested entries, r.relevance = 1) ∧
    ((∀ e ∈ entries, ¬ (requested.contains e.id = true)) →
      getByIds requested entries = []) := by
  have heq : getByIds requested entries =
      ((entries.filter fun e => requested.contains e.id).map
        fun e => mkSearchResult e 1) := by
    induction entries with
    | nil => simp [getByIds]
    | cons e rest ih =>
      rw [getByIds]
      cases hc : requested.contains e.id with
      | false => rw [List.filter_cons_of_neg (by simpa using hc)]; exact ih
      | true =>
        rw [List.filter_cons_of_pos (by simpa using hc), List.map_cons, ih]
        exact if_pos rfl
  refine ⟨heq, ?_, ?_⟩
  · intro r hr
    rw [heq, List.mem_map] at hr
    obtain ⟨e, _, rfl⟩ := hr
    rfl
  · intro hnone
    rw [heq, List.filter_eq_nil_iff.mpr hnone, List.map_nil]

/-- C3 witness: a known id yields exactly its entry with relevance 1, in
storage order; a request of only unknown ids yields the empty list. -/
theorem c3_witness :
    getByIds ["zzz"]
      [{ id := "abc123def456", content := "known", source := "MEMORY.md",
         layer := "tacit" }] = [] :=
  (c3_get_by_ids ["zzz"]
    [{ id := "abc123def456", content := "known", source := "MEMORY.md",
       layer := "tacit" }]).2.2 (by decide)

/-! ## C4 -/

/-- C4 counterexample to the claim's "only if" direction: two contents
with the same source and different 200-character prefixes whose ids
coincide.  The id keeps only 12 hex digits (48 bits) of the MD5, so
collisions exist; this concrete pair was found by a birthday search and
is checked here by evaluating the embedded MD5 in the kernel. -/
theorem c4_counterexample :
    generateId "7432632" "s" = generateId "16881573" "s" ∧
    pyTake "7432632" 200 ≠ pyTake "16881573" 200 := by
  exact ⟨by decide, by decide⟩

/-- C4 (amended): `generate_id` is a pure total function of the source
string and the first-200-character content prefix — same source and equal
prefixes always give equal ids.  The converse direction of the original
claim (equal ids imply equal prefixes) is false, per the
counterexample. -/
theorem c4_id_from_prefix (ca cb s : String)
    (h : pyTake ca 200 = pyTake cb 200) :
    generateId ca s = generateId cb s := by
  unfold generateId
  rw [h]

/-- C4 witness: two contents differing only beyond character 200 receive
the same id. -/
theorem c4_witness :
    pyTake (String.mk (List.replicate 200 'a' ++ ['x'])) 200 =
      pyTake (String.mk (List.replicate 200 'a' ++ ['y'])) 200 ∧
    generateId (String.mk (List.replicate 200 'a' ++ ['x'])) "s" =
      generateId (String.mk (List.replicate 200 'a' ++ ['y'])) "s" :=
  ⟨by decide, c4_id_from_prefix _ _ _ (by decide)⟩

/-! ## C5 -/


/-- C5 counterexample: a build over `fsDupIds` produces two distinct
entries carrying the same id — ids are not unique within one index. -/
theorem c5_counterexample :
    (indexAllEntries fsDupIds).map (fun e => e.id) = ["dup", "dup"] ∧
    (indexAllEntries fsDupIds)[0]? ≠ (indexAllEntries fsDupIds)[1]? := by
  exact ⟨by decide, by decide⟩

/-- C5 (amended): id uniqueness within an index is not enforced (duplicate
externally supplied ids, or repeated identical `(source, content-prefix)`
sections, produce duplicates).  What every build guarantees is id
provenance: each persisted entry's id is derived by `generate_id` from
that entry's own content and source, or else the entry is a
knowledge-graph fact entry carrying exactly the `id` its source record
supplied — some record of some entity's fact list in the walked taxonomy
has `id` equal to the entry's id and `fact` equal to the entry's content,
and the entry's source and entity name those of that record's file. -/
theorem c5_id_provenance (fs : FS) (e : MemoryEntry)
    (he : e ∈ indexAllEntries fs) :
    e.id = generateId e.content e.source ∨
    (e.layer = "knowledge_graph" ∧
      ∃ areaType ∈ areaTypes, ∃ ent ∈ fs.areas areaType, ∃ j,
        ent.items = some j ∧ ∃ item, KgItemVal.record item ∈ kgItemsList j ∧
          item.id = some e.id ∧ item.fact = some e.content ∧
          e.source = kgItemsPath areaType ent.name ∧
          e.entity = some ent.name) := by
  rw [indexAllEntries] at he
  simp only [List.mem_append] at he
  rcases he with ((hd | ht) | hkg) | htl
  · -- daily notes
    left
    rw [indexDailyNotes] at hd
    simp only [List.mem_flatMap, List.mem_filterMap] at hd
    obtain ⟨f, _, sec, _, hsec⟩ := hd
    split at hsec
    · exact absurd hsec (by simp)
    · cases hsec
      rfl
  · -- tacit
    left
    rw [indexTacit] at ht
    simp only [List.mem_flatMap, List.mem_filterMap] at ht
    obtain ⟨tf, _, sec, _, hsec⟩ := ht
    split at hsec
    · exact absurd hsec (by simp)
    · cases hsec
      rfl
  · -- knowledge graph: summary ids are content-derived; fact ids are
    -- content-derived when the record has no `id` field and otherwise are
    -- the record's own value
    rw [indexKnowledgeGraph] at hkg
    simp only [List.mem_flatMap, List.mem_append] at hkg
    obtain ⟨at_, hat, ent, hent, hmem⟩ := hkg
    rcases hmem with hsum | hitem
    · left
      cases hs : ent.summary with
      | none => rw [hs] at hsum; simp at hsum
      | some c =>
        rw [hs] at hsum
        simp only [List.mem_singleton] at hsum
        cases hsum
        rfl
    · cases hi : ent.items with
      | none => rw [hi] at hitem; simp at hitem
      | some j =>
        rw [hi] at hitem
        simp only [List.mem_filterMap] at hitem
        obtain ⟨v, hvmem, hv⟩ := hitem
        cases v with
        | nondict => exact absurd hv (by simp)
        | record item =>
          simp only at hv
          split at hv
          · exact absurd hv (by simp)
          · rename_i hfact
            cases hv
            cases hid : item.id with
            | none =>
              left
              simp [hid]
            | some i =>
              right
              refine ⟨rfl, at_, hat, ent, hent, j, hi, item, hvmem,
                by simp [hid], ?_, rfl, rfl⟩
              cases hf : item.fact with
              | none => rw [hf] at hfact; exact absurd rfl hfact
              | some s => rfl
  · -- tools
    left
    rw [indexTools] at htl
    simp only [List.mem_map] at htl
    obtain ⟨tf, _, rfl⟩ := htl
    rfl

/-- C5 witness: the provenance theorem applied to a concrete
knowledge-graph entry of the duplicate-id build. -/
theorem c5_witness :
    dupEntry ∈ indexAllEntries fsDupIds ∧
    (dupEntry.id = generateId dupEntry.content dupEntry.source ∨
      (dupEntry.layer = "knowledge_graph" ∧
        ∃ areaType ∈ areaTypes, ∃ ent ∈ fsDupIds.areas areaType, ∃ j,
          ent.items = some j ∧ ∃ item, KgItemVal.record item ∈ kgItemsList j ∧
            item.id = some dupEntry.id ∧ item.fact = some dupEntry.content ∧
            dupEntry.source = kgItemsPath areaType ent.name ∧
            dupEntry.entity = some ent.name)) :=
  ⟨by decide, c5_id_provenance fsDupIds dupEntry (by decide)⟩

/-! ## C6 -/

/-- C6 (the code's behavior at the claim's distinguishing input): with no
persisted index and a world whose collectors produce nothing, `search`
does build lazily, but the empty build persists nothing, the silent
reload fails again, and `self.indexer.vectorizer.transform(...)` then
raises an uncaught `AttributeError` on `None` — the empty-index condition
crosses the index/query boundary as a generic fault, not as an explicit
outcome. -/
theorem c6_empty_build_raises (w : World) (simsOf : String → List ℚ)
    (query : String) (limit : Int) (layerF sinceF entityF : Option String)
    (hp : w.persisted = none) (hempty : indexAllEntries w.fs = []) :
    searchOp w simsOf query limit layerF sinceF entityF =
      .error .noneTypeAttributeErr := by
  simp [searchOp, hp, hempty]

/-- C6 witness: the evaluation at the concrete failing input (empty
world, nothing persisted). -/
theorem c6_witness :
    searchOp { fs := {} } (fun _ => []) "any query" 10 none none none =
      .error .noneTypeAttributeErr :=
  c6_empty_build_raises _ _ _ _ _ _ _ rfl (by decide)

/-! ## C7 -/

/-- C7: whenever anchor resolution completes without an anchor instant
(an early `{}` return or a fall-through with `anchor_time` still `None`),
`get_timeline` returns the empty dict: no partial timeline, no time
window, no events, no guessed fallback anchor. -/
theorem c7_no_anchor_no_partial (w : World) (simsOf : String → List ℚ)
    (memoryId date query : Option String) (hb ha : Int)
    (h : resolveAnchor w simsOf memoryId date query = .ok .noAnchor ∨
         resolveAnchor w simsOf memoryId date query = .ok .earlyEmpty) :
    getTimeline w simsOf memoryId date query hb ha = .ok none := by
  rw [getTimeline]
  rcases h with h | h <;> rw [h]

/-- C7 witness: an id lookup that matches no entry resolves no anchor, and
the timeline result is empty. -/
theorem c7_witness :
    getTimeline
      { fs := {},
        persisted := some [{ id := "abc", content := "x", source := "MEMORY.md",
                             layer := "tacit" }] }
      (fun _ => []) (some "mem-zzz") none none 24 24 = .ok none :=
  c7_no_anchor_no_partial _ _ _ _ _ _ _ (Or.inl (by decide))

/-! ## Lemmas about timeline events -/

/-- Inversion: a non-empty timeline result comes from a resolved anchor
and is the window-and-events phase applied to it. -/
theorem getTimeline_ok_some {w : World} {simsOf : String → List ℚ}
    {mid date q : Option String} {hb ha : Int} {tl : Timeline}
    (h : getTimeline w simsOf mid date q hb ha = .ok (some tl)) :
    ∃ days ctx, resolveAnchor w simsOf mid date q = .ok (.resolved days ctx) ∧
      tl = buildTimeline w.fs days ctx hb ha := by
  rw [getTimeline] at h
  cases hres : resolveAnchor w simsOf mid date q with
  | error e => rw [hres] at h; cases h
  | ok out =>
    cases out with
    | earlyEmpty => rw [hres] at h; cases h
    | noAnchor => rw [hres] at h; cases h
    | resolved days ctx =>
      rw [hres] at h
      cases h
      exact ⟨days, ctx, rfl, rfl⟩

theorem kgFileEventsGo_type (file : TKgFile) :
    ∀ (l : List TKgItemVal), ∀ ev ∈ kgFileEventsGo file l,
      ev.type = "knowledge_graph"
  | [], ev, h => by simp [kgFileEventsGo] at h
  | .nondict :: rest, ev, h => by simp [kgFileEventsGo] at h
  | .record r :: rest, ev, h => by
    rw [kgFileEventsGo] at h
    rcases List.mem_cons.mp h with rfl | h2
    · rfl
    · exact kgFileEventsGo_type file rest ev h2

theorem kgEvents_type (fs : FS) (lo hi : ℚ) (ev : TEvent)
    (h : ev ∈ kgEvents fs lo hi) : ev.type = "knowledge_graph" := by
  rw [kgEvents, List.mem_flatMap] at h
  obtain ⟨file, _, hf⟩ := h
  split at hf
  · cases hj : file.json with
    | obj items => rw [hj] at hf; simp at hf
    | arr items =>
      rw [hj] at hf
      exact kgFileEventsGo_type file _ ev hf
  · simp at hf

theorem dailyEvents_type (fs : FS) (startD endD : String) (ev : TEvent)
    (h : ev ∈ dailyEvents fs startD endD) : ev.type = "daily_note" := by
  rw [dailyEvents, List.mem_flatMap] at h
  obtain ⟨f, _, hf⟩ := h
  split at hf
  · rw [List.mem_filterMap] at hf
    obtain ⟨line, _, hline⟩ := hf
    split at hline
    · cases hline; rfl
    · simp at hline
  · simp at hf

/-- A decimal-digit character is not a hyphen. -/
theorem isAsciiDigit_ne_dash {c : Char} (h : isAsciiDigit c = true) :
    (c == '-') = false := by
  cases hcc : c == '-' with
  | false => rfl
  | true =>
    have hc : c = '-' := eq_of_beq hcc
    subst hc
    exact absurd h (by decide)

/-- A filename stem that parses as a valid `YYYY-MM-DD` date has exactly
two hyphens, so it passes the timeline's `stem.count('-') == 2` test. -/
theorem parseYMD_isSome_hyphenCount {s : String}
    (h : (parseYMD s).isSome = true) : hyphenCount s = 2 := by
  rw [parseYMD] at h
  split at h
  · rename_i y1 y2 y3 y4 s1 m1 m2 s2 d1 d2 hsd
    split at h
    · rename_i hg
      simp only [Bool.and_eq_true] at hg
      obtain ⟨⟨⟨⟨⟨⟨⟨⟨⟨hy1, hy2⟩, hy3⟩, hy4⟩, hs1⟩, hm1⟩, hm2⟩, hs2⟩, hd1⟩, hd2⟩ := hg
      have e1 : s1 = '-' := eq_of_beq hs1
      have e2 : s2 = '-' := eq_of_beq hs2
      subst e1; subst e2
      rw [hyphenCount, hsd]
      simp [List.countP_cons, List.countP_nil, isAsciiDigit_ne_dash hy1,
        isAsciiDigit_ne_dash hy2, isAsciiDigit_ne_dash hy3,
        isAsciiDigit_ne_dash hy4, isAsciiDigit_ne_dash hm1,
        isAsciiDigit_ne_dash hm2, isAsciiDigit_ne_dash hd1,
        isAsciiDigit_ne_dash hd2]
    · simp at h
  · simp at h

/-- The daily-note path determines the stem. -/
theorem dailyPath_inj {a b : MdFile} (h : dailyPath a = dailyPath b) :
    a.stem = b.stem := by
  have hd := congrArg String.data h
  simp only [dailyPath, String.data_append] at hd
  have h1 := List.append_cancel_right hd
  have h2 := List.append_cancel_left h1
  exact String.ext h2

/-- Sum of a pointwise map that vanishes away from a single element
occurring once. -/
theorem sum_map_eq_of_single {α : Type} [DecidableEq α] (L : List α)
    (g : α → Nat) (a : α) (hcount : L.count a = 1)
    (hz : ∀ b ∈ L, b ≠ a → g b = 0) : (L.map g).sum = g a := by
  induction L with
  | nil => simp at hcount
  | cons x rest ih =>
    rw [List.count_cons] at hcount
    by_cases hx : x = a
    · subst hx
      simp only [beq_self_eq_true, if_true] at hcount
      have hrest : List.count x rest = 0 := by omega
      have hnot : x ∉ rest := List.count_eq_zero.mp hrest
      rw [List.map_cons, List.sum_cons]
      have hzero : (rest.map g).sum = 0 := by
        apply List.sum_eq_zero
        intro y hy
        rw [List.mem_map] at hy
        obtain ⟨b, hb, rfl⟩ := hy
        exact hz b (List.mem_cons_of_mem _ hb)
          (fun hba => hnot (hba ▸ hb))
      omega
    · have hxa : (x == a) = false := by simp [hx]
      rw [hxa] at hcount
      simp at hcount
      rw [List.map_cons, List.sum_cons,
        hz x (List.mem_cons_self _ _) hx,
        ih (by omega) (fun b hb hba => hz b (List.mem_cons_of_mem _ hb) hba)]
      omega

/-- Counting one file's headline events inside the gathered daily events:
with distinct stems across the directory, the in-window file `f`
contributes one event per matching `##` line and no other file
contributes an event carrying `f`'s path. -/
theorem count_dailyEvents (fs : FS) (startD endD : String) (f : MdFile)
    (line : String) (hf : f ∈ fs.memoryFiles)
    (hnodup : (fs.memoryFiles.map MdFile.stem).Nodup)
    (hcond : (hyphenCount f.stem == 2 && pyLe startD f.stem &&
      pyLe f.stem endD) = true) :
    (dailyEvents fs startD endD).count (mkDailyEvent f line) =
      ((pySplitNl f.content).filter fun l =>
        pyStartsWith l "##" && (mkDailyEvent f l == mkDailyEvent f line)).length := by
  classical
  rw [dailyEvents, List.count_flatMap]
  have hperm : (sortedByName fs.memoryFiles).Perm fs.memoryFiles :=
    List.perm_insertionSort _ _
  rw [(hperm.map _).sum_eq]
  have hone : fs.memoryFiles.count f = 1 :=
    List.count_eq_one_of_mem (List.Nodup.of_map MdFile.stem hnodup) hf
  rw [sum_map_eq_of_single fs.memoryFiles _ f hone ?side]
  case side =>
    intro g hg hgf
    have hstem : g.stem ≠ f.stem := fun hsame =>
      hgf (List.inj_on_of_nodup_map hnodup hg hf hsame)
    simp only [Function.comp]
    split
    · rw [List.count_filterMap]
      apply List.countP_eq_zero.mpr
      intro l _
      split
      · intro hbeq
        have hev : mkDailyEvent g l = mkDailyEvent f line := by
          simpa using hbeq
        have hfile : dailyPath g = dailyPath f := congrArg TEvent.file hev
        exact hstem (dailyPath_inj hfile)
      · simp
    · simp
  · simp only [Function.comp]
    rw [if_pos hcond, List.count_filterMap,
      List.countP_congr ?ptwise, List.countP_eq_length_filter]
    case ptwise =>
      intro l _
      cases hs : pyStartsWith l "##" with
      | false => simp [hs]
      | true => simp [hs]

/-! ## C8 -/

/-- C8: in every timeline with a resolved anchor, a daily-note file whose
stem is a valid `YYYY-MM-DD` date (hence has no extra hyphens) lying
inside the day window `[start, end]` contributes, for each of its lines
starting with `##`, exactly one `daily_note` event dated at the file's
date — the count of each such event among the returned events equals the
number of `##` lines of that file producing it.  (Stems are assumed
pairwise distinct across the directory, as filenames are on a real file
system.) -/
theorem c8_daily_headline_events (w : World) (simsOf : String → List ℚ)
    (mid date q : Option String) (hb ha : Int) (tl : Timeline)
    (f : MdFile) (line : String)
    (htl : getTimeline w simsOf mid date q hb ha = .ok (some tl))
    (hf : f ∈ w.fs.memoryFiles)
    (hnodup : (w.fs.memoryFiles.map MdFile.stem).Nodup)
    (hvalid : (parseYMD f.stem).isSome = true)
    (hlo : pyLe tl.window.start f.stem = true)
    (hhi : pyLe f.stem tl.window.stop = true)
    (hline : line ∈ pySplitNl f.content)
    (hhead : pyStartsWith line "##" = true) :
    tl.events.count (mkDailyEvent f line) =
      ((pySplitNl f.content).filter fun l =>
        pyStartsWith l "##" && (mkDailyEvent f l == mkDailyEvent f line)).length := by
  obtain ⟨days, ctx, hres, rfl⟩ := getTimeline_ok_some htl
  simp only [buildTimeline] at hlo hhi ⊢
  rw [sortEvents, (List.perm_insertionSort _ _).count_eq, List.count_append]
  have hkg0 : List.count (mkDailyEvent f line)
      (kgEvents w.fs ((days * 24 - hb : Int) : ℚ) ((days * 24 + ha : Int) : ℚ)) = 0 := by
    apply List.count_eq_zero_of_not_mem
    intro hmem
    have htype := kgEvents_type _ _ _ _ hmem
    simp [mkDailyEvent] at htype
  rw [hkg0, Nat.add_zero]
  apply count_dailyEvents w.fs _ _ f line hf hnodup
  have h2 : hyphenCount f.stem = 2 := parseYMD_isSome_hyphenCount hvalid
  simp [h2, hlo, hhi]


/-- C8 witness: an anchor of `2026-01-31` with 24 hours before and after
yields window `[2026-01-30, 2026-02-01]` and captures both files'
headline events exactly once each. -/
theorem c8_witness :
    getTimeline { fs := fsC8 } (fun _ => []) none (some "2026-01-31") none 24 24 =
      .ok (some (buildTimeline fsC8 20484 none 24 24)) ∧
    (buildTimeline fsC8 20484 none 24 24).window.start = "2026-01-30" ∧
    (buildTimeline fsC8 20484 none 24 24).window.stop = "2026-02-01" ∧
    (buildTimeline fsC8 20484 none 24 24).events.count
      (mkDailyEvent
        { stem := "2026-01-30",
          content := "## Discussed deployment plan\nsome deployment text" }
        "## Discussed deployment plan") = 1 ∧
    (buildTimeline fsC8 20484 none 24 24).events.count
      (mkDailyEvent
        { stem := "2026-02-01", content := "## Fixed the bug\nmore text here" }
        "## Fixed the bug") = 1 := by
  refine ⟨by decide, by decide, by decide, ?_, ?_⟩
  · have h := c8_daily_headline_events { fs := fsC8 } (fun _ => []) none
      (some "2026-01-31") none 24 24 (buildTimeline fsC8 20484 none 24 24)
      { stem := "2026-01-30",
        content := "## Discussed deployment plan\nsome deployment text" }
      "## Discussed deployment plan" (by decide) (by decide) (by decide)
      (by decide) (by decide) (by decide) (by decide) (by decide)
    rw [h]
    decide
  · have h := c8_daily_headline_events { fs := fsC8 } (fun _ => []) none
      (some "2026-01-31") none 24 24 (buildTimeline fsC8 20484 none 24 24)
      { stem := "2026-02-01", content := "## Fixed the bug\nmore text here" }
      "## Fixed the bug" (by decide) (by decide) (by decide)
      (by decide) (by decide) (by decide) (by decide) (by decide)
    rw [h]
    decide

/-! ## C9 -/



/-- Over a list of records only, the sequential (abort-on-non-dict) loop
is just the per-record event map. -/
theorem kgFileEventsGo_eq_filterMap (file : TKgFile) (l : List TKgItemVal)
    (hl : ∀ v ∈ l, ∃ r, v = .record r) :
    kgFileEventsGo file l = l.filterMap fun v =>
      match v with
      | .record r => some (mkKgEvent file r)
      | .nondict => none := by
  induction l with
  | nil => rfl
  | cons v rest ih =>
    obtain ⟨r, rfl⟩ := hl v (List.mem_cons_self _ _)
    rw [kgFileEventsGo, List.filterMap_cons]
    simp only []
    rw [ih fun u hu => hl u (List.mem_cons_of_mem _ hu)]

/-- C9 (amended): in every built timeline, per fact-list file of the
tree, the knowledge-graph events are, as a multiset, the union of each
file's contribution, where a file contributes nothing when its
modification time lies outside the instant window `[anchor −
hours_before, anchor + hours_after]`, nothing when its JSON is an object
wrapping the list (the code's `items[-5:]` raises `TypeError`, silently
swallowed — where the original claim fails, see the counterexample), and
otherwise — for a bare JSON list of record objects, as the hypothesis
requires of bare lists — exactly its last five records, each made an
event dated by the record's own stored timestamp and tagged with the
owning entity.  Mixed trees of bare and wrapped files are covered. -/
theorem c9_kg_fact_events (fs : FS) (days : Int) (ctx : Option AnchorCtx)
    (hb ha : Int)
    (hrecs : ∀ file ∈ fs.kgItemFiles, ∀ l, file.json = .arr l →
      ∀ v ∈ l, ∃ r, v = .record r) :
    ((buildTimeline fs days ctx hb ha).events.filter
      fun ev => ev.type == "knowledge_graph").Perm
      (fs.kgItemFiles.flatMap fun file =>
        if ((days * 24 - hb : Int) : ℚ) ≤ file.mtimeH ∧
            file.mtimeH ≤ ((days * 24 + ha : Int) : ℚ) then
          match file.json with
          | .obj _ => []
          | .arr items =>
            (takeLast 5 items).filterMap fun v =>
              match v with
              | .record r => some (mkKgEvent file r)
              | .nondict => none
        else []) := by
  simp only [buildTimeline]
  refine ((List.perm_insertionSort _ _).filter _).trans ?_
  rw [List.filter_append]
  have hdaily : (dailyEvents fs (dateStrOfDays ((days * 24 - hb).fdiv 24))
      (dateStrOfDays ((days * 24 + ha).fdiv 24))).filter
      (fun ev => ev.type == "knowledge_graph") = [] := by
    apply List.filter_eq_nil_iff.mpr
    intro ev hev
    have ht := dailyEvents_type _ _ _ _ hev
    simp [ht]
  have hkgf : (kgEvents fs ((days * 24 - hb : Int) : ℚ)
      ((days * 24 + ha : Int) : ℚ)).filter
      (fun ev => ev.type == "knowledge_graph") =
      kgEvents fs ((days * 24 - hb : Int) : ℚ) ((days * 24 + ha : Int) : ℚ) := by
    apply List.filter_eq_self.mpr
    intro ev hev
    simp [kgEvents_type _ _ _ _ hev]
  rw [hdaily, hkgf, List.nil_append, kgEvents]
  have hcongr : fs.kgItemFiles.flatMap (fun file =>
      if ((days * 24 - hb : Int) : ℚ) ≤ file.mtimeH &&
          file.mtimeH ≤ ((days * 24 + ha : Int) : ℚ) then
        match file.json with
        | .obj _ => []
        | .arr items => kgFileEventsGo file (takeLast 5 items)
      else []) =
      fs.kgItemFiles.flatMap (fun file =>
        if ((days * 24 - hb : Int) : ℚ) ≤ file.mtimeH ∧
            file.mtimeH ≤ ((days * 24 + ha : Int) : ℚ) then
          match file.json with
          | .obj _ => []
          | .arr items =>
            (takeLast 5 items).filterMap fun v =>
              match v with
              | .record r => some (mkKgEvent file r)
              | .nondict => none
        else []) := by
    apply List.flatMap_congr
    intro file hfile
    by_cases hw : ((days * 24 - hb : Int) : ℚ) ≤ file.mtimeH ∧
        file.mtimeH ≤ ((days * 24 + ha : Int) : ℚ)
    · rw [if_pos (show ((decide (((days * 24 - hb : Int) : ℚ) ≤ file.mtimeH)) &&
          (decide (file.mtimeH ≤ ((days * 24 + ha : Int) : ℚ)))) = true by
          simp only [Bool.and_eq_true, decide_eq_true_eq]
          exact hw),
        if_pos hw]
      cases hj : file.json with
      | obj l => rfl
      | arr l =>
        exact kgFileEventsGo_eq_filterMap file (takeLast 5 l)
          fun v hv => hrecs file hfile l hj v (List.mem_of_mem_drop hv)
    · rw [if_neg (show ¬ ((decide (((days * 24 - hb : Int) : ℚ) ≤ file.mtimeH)) &&
          (decide (file.mtimeH ≤ ((days * 24 + ha : Int) : ℚ)))) = true by
          simp only [Bool.and_eq_true, decide_eq_true_eq]
          exact hw),
        if_neg hw]
  rw [hcongr]



/-- C9 counterexample to the claim as stated: the wrapped fact list's file
modification time lies inside the instant window and the wrapped list is
non-empty, yet the timeline contains no knowledge-graph event at all —
`items[-5:]` on the object raises `TypeError`, silently swallowed. -/
theorem c9_counterexample :
    ((20484 * 24 - 24 : Int) : ℚ) ≤ 491616 ∧
    ((491616 : ℚ) ≤ ((20484 * 24 + 24 : Int) : ℚ)) ∧
    tkgItems (TKgJson.obj [.record aliceFact]) ≠ [] ∧
    ((buildTimeline fsWrapped 20484 none 24 24).events.filter
      fun ev => ev.type == "knowledge_graph") = [] := by
  exact ⟨by decide, by decide, by decide, by decide⟩


/-- C9 witness: the amended per-file theorem applied to a mixed tree of
one bare-list and one object-wrapped fact file. -/
theorem c9_witness :
    ((buildTimeline fsMixed 20484 none 24 24).events.filter
      fun ev => ev.type == "knowledge_graph").Perm
      (fsMixed.kgItemFiles.flatMap fun file =>
        if ((20484 * 24 - 24 : Int) : ℚ) ≤ file.mtimeH ∧
            file.mtimeH ≤ ((20484 * 24 + 24 : Int) : ℚ) then
          match file.json with
          | .obj _ => []
          | .arr items =>
            (takeLast 5 items).filterMap fun v =>
              match v with
              | .record r => some (mkKgEvent file r)
              | .nondict => none
        else []) :=
  c9_kg_fact_events fsMixed 20484 none 24 24 (by
    intro file hfile l hl v hv
    fin_cases hfile
    · cases hl
      have hvv := List.mem_singleton.mp hv
      subst hvv
      exact ⟨aliceFact, rfl⟩
    · cases hl)

/-! ## C10 -/

/-- Any element the scan emits wraps a candidate pair. -/
theorem searchScan_mem (layerF sinceF entityF : Option String) (limit : Int)
    (l : List (MemoryEntry × ℚ)) (r : SearchResult)
    (hr : r ∈ searchScan layerF sinceF entityF limit l) :
    ∃ p ∈ l, r = mkSearchResult p.1 p.2 := by
  have hsub := searchScan_sublist layerF sinceF entityF limit l
  have hmem := hsub.subset hr
  rw [List.mem_map] at hmem
  obtain ⟨p, hp, rfl⟩ := hmem
  exact ⟨p, hp, rfl⟩

/-- Any element the id lookup emits wraps a loaded entry (with score 1). -/
theorem getByIds_mem (requested : List String) (entries : List MemoryEntry)
    (r : SearchResult) (hr : r ∈ getByIds requested entries) :
    ∃ e ∈ entries, r = mkSearchResult e 1 := by
  induction entries with
  | nil => simp [getByIds] at hr
  | cons e rest ih =>
    rw [getByIds] at hr
    split at hr
    · rcases List.mem_cons.mp hr with rfl | hr2
      · exact ⟨e, List.mem_cons_self _ _, rfl⟩
      · obtain ⟨e2, he2, rfl⟩ := ih hr2
        exact ⟨e2, List.mem_cons_of_mem _ he2, rfl⟩
    · obtain ⟨e2, he2, rfl⟩ := ih hr
      exact ⟨e2, List.mem_cons_of_mem _ he2, rfl⟩

/-- C10: every result record of `search` and of the direct id lookup
carries string-typed optional metadata fields equal to the entry's stored
value when present and `''` (never a null) when absent. -/
theorem c10_metadata_coercion (sims : List ℚ) (entries : List MemoryEntry)
    (limit : Int) (layerF sinceF entityF : Option String)
    (requested : List String) :
    (∀ r ∈ searchRank sims entries limit layerF sinceF entityF,
      ∃ e ∈ entries,
        r.metadata.timestamp = (match e.timestamp with | some t => t | none => "") ∧
        r.metadata.entity = (match e.entity with | some t => t | none => "") ∧
        r.metadata.category = (match e.category with | some t => t | none => "")) ∧
    (∀ r ∈ getByIds requested entries,
      ∃ e ∈ entries,
        r.metadata.timestamp = (match e.timestamp with | some t => t | none => "") ∧
        r.metadata.entity = (match e.entity with | some t => t | none => "") ∧
        r.metadata.category = (match e.category with | some t => t | none => "")) := by
  constructor
  · intro r hr
    obtain ⟨p, hp, rfl⟩ := searchScan_mem layerF sinceF entityF limit _ r hr
    refine ⟨p.1, rankedPairs_mem sims entries p hp, ?_, ?_, ?_⟩
    · show pyOrEmpty p.1.timestamp = _
      cases p.1.timestamp <;> rfl
    · show pyOrEmpty p.1.entity = _
      cases p.1.entity <;> rfl
    · show pyOrEmpty p.1.category = _
      cases p.1.category <;> rfl
  · intro r hr
    obtain ⟨e, he, rfl⟩ := getByIds_mem requested entries r hr
    refine ⟨e, he, ?_, ?_, ?_⟩
    · show pyOrEmpty e.timestamp = _
      cases e.timestamp <;> rfl
    · show pyOrEmpty e.entity = _
      cases e.entity <;> rfl
    · show pyOrEmpty e.category = _
      cases e.category <;> rfl

/-- C10 witness: the coercion statement applied to a concrete search
result whose entry has an entity but no timestamp and no category. -/
theorem c10_witness :
    (mkSearchResult
      { id := "m1", content := "text body", source := "memory/w10.md",
        layer := "daily", entity := some "Ada" } 1) ∈
      searchRank [(1 : ℚ)]
        [{ id := "m1", content := "text body", source := "memory/w10.md",
           layer := "daily", entity := some "Ada" }] 1 none none none ∧
    ∃ e ∈ [({ id := "m1", content := "text body", source := "memory/w10.md",
              layer := "daily", entity := some "Ada" } : MemoryEntry)],
      (mkSearchResult
        { id := "m1", content := "text body", source := "memory/w10.md",
          layer := "daily", entity := some "Ada" } 1).metadata.timestamp =
        (match e.timestamp with | some t => t | none => "") ∧
      (mkSearchResult
        { id := "m1", content := "text body", source := "memory/w10.md",
          layer := "daily", entity := some "Ada" } 1).metadata.entity =
        (match e.entity with | some t => t | none => "") ∧
      (mkSearchResult
        { id := "m1", content := "text body", source := "memory/w10.md",
          layer := "daily", entity := some "Ada" } 1).metadata.category =
        (match e.category with | some t => t | none => "") :=
  ⟨by decide,
    (c10_metadata_coercion [(1 : ℚ)]
      [{ id := "m1", content := "text body", source := "memory/w10.md",
         layer := "daily", entity := some "Ada" }] 1 none none none []).1
      _ (by decide)⟩

end Memex
